import Mathlib

/-!
# Shadow-Bot navigation controller (main.c)

A shallow embedding of the control logic of main.c: the motion primitives
acc, turn, flashLEDs, wait10ms, the beacon seeker facebeacon and one cycle of
the main loop.

Hardware is modelled as follows.

* Output latches (the four H-bridge lines and the four LEDs) are fields of the
  program state World; every write is also appended to an event trace.
* Input pins are volatile: each read of a sensor consumes the next sample of
  that sensor's stream in the environment Env, and is appended to the trace.
* The busy loops (the tick-counting loop of turn, the seek loop of facebeacon)
  take a fuel argument; running out of fuel means the loop is still spinning.
* The float variable ang2ticks is modelled exactly as an IEEE 754 binary32
  number in fixed point (units of 2^-22); products with it are rounded to
  nearest, ties to even, as one single-precision multiplication does.
* C int values (dir, ang, dur, count, ticks) are integers; the int of the
  target is 16 bits wide (INT_MAX = 32767), and a statement that depends on a
  value fitting an int says so in a hypothesis. One-bit pin fields are
  booleans.
-/

namespace ShadowBot

/-! ## Single-precision arithmetic on ang2ticks -/

/-- The variable ang2ticks = 2.6 stored as a C float: the binary32 number
nearest to 2.6 is 0x40266666 = 10905190 * 2^-22 = 2.599999904..., here given in
units of 2^-22. -/
def ang2ticks : Nat := 10905190

/-- Number of low bits that must be dropped from p to leave at most 24
significant bits (the width of a binary32 significand). -/
def excessBits : Nat → Nat → Nat
  | 0, _ => 0
  | f + 1, p => if p < 2 ^ 24 then 0 else 1 + excessBits f (p / 2)

/-- Round a non-negative fixed-point magnitude to 24 significant bits,
round-to-nearest, ties to even: the rounding of one binary32 operation. -/
def roundF32 (p : Nat) : Nat :=
  let s := excessBits p p
  let q := p / 2 ^ s
  let r := p % 2 ^ s
  let up := 2 * r > 2 ^ s ∨ (2 * r = 2 ^ s ∧ q % 2 = 1)
  (if up then q + 1 else q) * 2 ^ s

/-- The float product n * ang2ticks for an int of magnitude n, as a magnitude
in units of 2^-22: n is first converted to float (exact below 2^24, which
covers every 16-bit int; rounded to 24 significant bits above), then
multiplied. -/
def mulAng2ticks (n : Nat) : Nat := roundF32 (roundF32 n * ang2ticks)

/-- The initialiser of turn, int ticks = ang * ang2ticks: the float product
converted to int, which truncates toward zero. This is the mathematical value
of the truncated product; C defines the conversion only when that value fits
an int, that is when it lies between -INT_MAX - 1 and INT_MAX (on the target
from ang = 12604 on it is 32770 and no longer fits). For ang = 1 the product
is 2.5999999 and ticks = 2; for ang = 60 the exact product 155.9999943 rounds
to the float 156.0 and ticks = 156. -/
def ticksOf (ang : Int) : Int :=
  if ang < 0 then -((mulAng2ticks ang.natAbs / 2 ^ 22 : Nat) : Int)
  else ((mulAng2ticks ang.natAbs / 2 ^ 22 : Nat) : Int)

/-- The test count > 360 * ang2ticks of facebeacon: count is converted to
float (exactly) and compared with the float product. The exact product is
935.9999657; the floats around it are 936 - 2^-14 = 935.9999390 and 936, with
midpoint 935.9999695, so the product is the float 936 - 2^-14. -/
def overBudget (count : Int) : Bool :=
  decide (count * 2 ^ 22 > (mulAng2ticks 360 : Int))

/-! ## Data model -/

/-- Output latch bits written by the program. -/
inductive Pin
  | rightmotorA1 | rightmotorA2 | leftmotorB1 | leftmotorB2
  | LED1 | LED2 | LED3 | LED4
  deriving DecidableEq, Repr

/-- Input bits and analogue channels read by the program. -/
inductive Sensor
  | beaconLeft | beaconRight | encoderLeft | encoderRight | leftADC | rightADC
  deriving DecidableEq, Repr

/-- One observable hardware action, in program order. -/
inductive Event
  | write (p : Pin) (v : Bool)
  | read (s : Sensor) (v : Nat)
  | delay10ms
  deriving DecidableEq, Repr

/-- The environment: for each sensor, the value seen by its k-th read. -/
structure Env where
  beaconLeft : Nat → Bool
  beaconRight : Nat → Bool
  encoderLeft : Nat → Bool
  encoderRight : Nat → Bool
  leftADC : Nat → Nat
  rightADC : Nat → Nat

/-- Program-visible hardware state: the output latches, how many samples of
each sensor have been consumed so far, and the trace of events (oldest
first). -/
structure World where
  rightmotorA1 : Bool
  rightmotorA2 : Bool
  leftmotorB1 : Bool
  leftmotorB2 : Bool
  LED1 : Bool
  LED2 : Bool
  LED3 : Bool
  LED4 : Bool
  nBeaconLeft : Nat
  nBeaconRight : Nat
  nEncoderLeft : Nat
  nEncoderRight : Nat
  nLeftADC : Nat
  nRightADC : Nat
  trace : List Event
  deriving DecidableEq, Repr

/-- The four H-bridge lines in the order rightmotorA1, rightmotorA2,
leftmotorB1, leftmotorB2. -/
def World.motors (w : World) : Bool × Bool × Bool × Bool :=
  (w.rightmotorA1, w.rightmotorA2, w.leftmotorB1, w.leftmotorB2)

/-- The four LED lines LED1..LED4. -/
def World.leds (w : World) : Bool × Bool × Bool × Bool :=
  (w.LED1, w.LED2, w.LED3, w.LED4)

/-- Numeric value of a one-bit field. -/
def bit (b : Bool) : Int := if b then 1 else 0

/-- Assignment to an output latch bit. -/
def setPin (p : Pin) (v : Bool) (w : World) : World :=
  let w1 := { w with trace := w.trace ++ [Event.write p v] }
  match p with
  | .rightmotorA1 => { w1 with rightmotorA1 := v }
  | .rightmotorA2 => { w1 with rightmotorA2 := v }
  | .leftmotorB1 => { w1 with leftmotorB1 := v }
  | .leftmotorB2 => { w1 with leftmotorB2 := v }
  | .LED1 => { w1 with LED1 := v }
  | .LED2 => { w1 with LED2 := v }
  | .LED3 => { w1 with LED3 := v }
  | .LED4 => { w1 with LED4 := v }

/-- The statement sequence rightmotorA1 = a1; rightmotorA2 = a2;
leftmotorB1 = b1; leftmotorB2 = b2. -/
def setMotors (a1 a2 b1 b2 : Bool) (w : World) : World :=
  setPin .leftmotorB2 b2 (setPin .leftmotorB1 b1
    (setPin .rightmotorA2 a2 (setPin .rightmotorA1 a1 w)))

/-- The statement sequence LED1 = v; LED2 = v; LED3 = v; LED4 = v. -/
def setLEDs (v : Bool) (w : World) : World :=
  setPin .LED4 v (setPin .LED3 v (setPin .LED2 v (setPin .LED1 v w)))

/-- Read of the beaconLeft input bit. -/
def readBeaconLeft (env : Env) (w : World) : Bool × World :=
  let v := env.beaconLeft w.nBeaconLeft
  (v, { w with nBeaconLeft := w.nBeaconLeft + 1,
               trace := w.trace ++ [Event.read .beaconLeft (bit v).toNat] })

/-- Read of the beaconRight input bit. -/
def readBeaconRight (env : Env) (w : World) : Bool × World :=
  let v := env.beaconRight w.nBeaconRight
  (v, { w with nBeaconRight := w.nBeaconRight + 1,
               trace := w.trace ++ [Event.read .beaconRight (bit v).toNat] })

/-- Read of the encoderLeft input bit. -/
def readEncoderLeft (env : Env) (w : World) : Bool × World :=
  let v := env.encoderLeft w.nEncoderLeft
  (v, { w with nEncoderLeft := w.nEncoderLeft + 1,
               trace := w.trace ++ [Event.read .encoderLeft (bit v).toNat] })

/-- Read of the encoderRight input bit. -/
def readEncoderRight (env : Env) (w : World) : Bool × World :=
  let v := env.encoderRight w.nEncoderRight
  (v, { w with nEncoderRight := w.nEncoderRight + 1,
               trace := w.trace ++ [Event.read .encoderRight (bit v).toNat] })

/-- The call readleftADC(): one conversion of the left proximity channel; the
environment supplies the converted value (ADRESH << 8) + ADRESL. -/
def readleftADC (env : Env) (w : World) : Nat × World :=
  let v := env.leftADC w.nLeftADC
  (v, { w with nLeftADC := w.nLeftADC + 1,
               trace := w.trace ++ [Event.read .leftADC v] })

/-- The call readrightADC(): one conversion of the right proximity channel. -/
def readrightADC (env : Env) (w : World) : Nat × World :=
  let v := env.rightADC w.nRightADC
  (v, { w with nRightADC := w.nRightADC + 1,
               trace := w.trace ++ [Event.read .rightADC v] })

/-- The global setpoint_distance = 300. -/
def setpoint_distance : Nat := 300

/-! ## Motion primitives -/

/-- The function wait10ms(del): del calls of __delay_ms(10), none when del is
not positive. -/
def wait10ms (del : Int) (w : World) : World :=
  { w with trace := w.trace ++ List.replicate del.toNat Event.delay10ms }

/-- The function acc(dir, dur). -/
def acc (dir dur : Int) (w : World) : World :=
  let w1 :=
    if dir = 1 then setMotors false true false true w
    else if dir = -1 then setMotors true false true false w
    else if dir = 0 then setMotors true true true true w
    else w
  wait10ms dur w1

/-- One pass of the body of the for loop of flashLEDs. -/
def flashOnce (dur : Int) (w : World) : World :=
  wait10ms (Int.tdiv dur 6) (setLEDs false (wait10ms (Int.tdiv dur 6) (setLEDs true w)))

/-- The function flashLEDs(dur): three passes of the loop body. -/
def flashLEDs (dur : Int) (w : World) : World :=
  flashOnce dur (flashOnce dur (flashOnce dur w))

/-! ## Closed-loop turns -/

/-- Outcome of running a piece of the program. -/
inductive Run
  /-- The function returned to its caller. -/
  | ret (w : World)
  /-- The program reached a while(1); and stays there forever. -/
  | halt (w : World)
  /-- The fuel ran out while a busy loop was still running. -/
  | spin (w : World)
  deriving DecidableEq, Repr

/-- The hardware state in which a run ended (or was cut off). -/
def Run.world : Run → World
  | .ret w => w
  | .halt w => w
  | .spin w => w

/-- Local variables of a tick-counting loop together with the hardware
state. -/
structure Counter where
  count : Int
  temp : Bool
  w : World
  deriving DecidableEq, Repr

/-- The two statements if (temp != encoderLeft){ count++; } temp = encoderLeft;
each mention of encoderLeft is a separate read of the pin. -/
def tickLeft (env : Env) (s : Counter) : Counter :=
  let a := readEncoderLeft env s.w
  let b := readEncoderLeft env a.2
  { count := if s.temp != a.1 then s.count + 1 else s.count, temp := b.1, w := b.2 }

/-- The two statements if (temp != encoderRight){ count++; }
temp = encoderRight;. -/
def tickRight (env : Env) (s : Counter) : Counter :=
  let a := readEncoderRight env s.w
  let b := readEncoderRight env a.2
  { count := if s.temp != a.1 then s.count + 1 else s.count, temp := b.1, w := b.2 }

/-- The loop while (count < ticks) { body }, where body is tickLeft or
tickRight. The result is none when the fuel runs out with count < ticks. -/
def countLoop (body : Counter → Counter) (ticks : Int) : Nat → Counter → Option Counter
  | 0, s => if s.count < ticks then none else some s
  | fuel + 1, s =>
    if s.count < ticks then countLoop body ticks fuel (body s) else some s

/-- The function turn(dir, ang); none when the fuel runs out inside the
counting loop. -/
def turn (env : Env) (dir ang : Int) (fuel : Nat) (w : World) : Option World :=
  let ticks := ticksOf ang
  let counted : Option World :=
    if dir = 1 then
      let w1 := setMotors true true false true w
      let t := readEncoderLeft env w1
      (countLoop (tickLeft env) ticks fuel { count := 0, temp := t.1, w := t.2 }).map Counter.w
    else if dir = -1 then
      let w1 := setMotors false true true true w
      let t := readEncoderRight env w1
      (countLoop (tickRight env) ticks fuel { count := 0, temp := t.1, w := t.2 }).map Counter.w
    else some w
  counted.map fun w2 => if ang ≠ 0 then setMotors true true true true w2 else w2

/-! ## Beacon seeker -/

/-- The loop test beaconLeft == 1 || beaconRight == 1 of facebeacon; the right
sensor is read only when the left one reads 0. -/
def beaconUnseen (env : Env) (w : World) : Bool × World :=
  let l := readBeaconLeft env w
  if l.1 then (true, l.2) else readBeaconRight env l.2

/-- The while loop of facebeacon. The loop test itself costs no fuel; each
pass of the body costs one unit. -/
def facebeaconLoop (env : Env) : Nat → Counter → Run
  | fuel, s =>
    let c := beaconUnseen env s.w
    if c.1 then
      match fuel with
      | 0 => .spin c.2
      | fuel + 1 =>
        let a := readBeaconLeft env c.2
        match turn env (bit a.1 * 2 - 1) 0 fuel a.2 with
        | none => .spin a.2
        | some w1 =>
          let s1 := tickLeft env { count := s.count, temp := s.temp, w := w1 }
          if overBudget s1.count then .halt (acc 0 0 (flashLEDs 300 s1.w))
          else facebeaconLoop env fuel s1
    else .ret c.2

/-- The function facebeacon(). -/
def facebeacon (env : Env) (fuel : Nat) (w : World) : Run :=
  let t := readEncoderLeft env w
  facebeaconLoop env fuel { count := 0, temp := t.1, w := t.2 }

/-! ## Main loop -/

/-- The test beaconLeft == 1 && beaconRight == 1 of the obstacle branch; the
right sensor is read only when the left one reads 1. -/
def bothUnseen (env : Env) (w : World) : Bool × World :=
  let l := readBeaconLeft env w
  if l.1 then readBeaconRight env l.2 else (false, l.2)

/-- The statements flashLEDs(100); wait10ms(10); acc(-1, 100); turn(-1, 60);
acc(1, 120); turn(1, 60); of the obstacle branch. -/
def maneuver (env : Env) (fuel : Nat) (w : World) : Run :=
  let w1 := acc (-1) 100 (wait10ms 10 (flashLEDs 100 w))
  match turn env (-1) 60 fuel w1 with
  | none => .spin w1
  | some w2 =>
    let w3 := acc 1 120 w2
    match turn env 1 60 fuel w3 with
    | none => .spin w3
    | some w4 => .ret w4

/-- The obstacle branch of the main loop (the body of the if). -/
def avoid (env : Env) (fuel : Nat) (w : World) : Run :=
  let g := bothUnseen env (acc 0 0 w)
  if g.1 then .halt (flashLEDs 300 g.2) else maneuver env fuel g.2

/-- The test readleftADC() >= setpoint_distance ||
readrightADC() >= setpoint_distance; the right channel is converted only when
the left reading is below the setpoint. -/
def obstacleAhead (env : Env) (w : World) : Bool × World :=
  let l := readleftADC env w
  if l.1 ≥ setpoint_distance then (true, l.2)
  else
    let r := readrightADC env l.2
    (decide (r.1 ≥ setpoint_distance), r.2)

/-- The if statement of the main loop, executed after facebeacon returns. -/
def proximityStep (env : Env) (fuel : Nat) (w : World) : Run :=
  let o := obstacleAhead env w
  if o.1 then avoid env fuel o.2 else .ret (acc 1 5 o.2)

/-- One pass of the body of while(1) in main. -/
def mainCycle (env : Env) (fuel : Nat) (w : World) : Run :=
  match facebeacon env fuel w with
  | .ret w1 => proximityStep env fuel w1
  | r => r

/-- A state as the main loop is entered, with an empty event history: LATB = 0
followed by flashLEDs(300) leave every latch of port B (right motor, LEDs) low;
the two left-motor latches on port A are not initialised and are given as
parameters. -/
def World.start (b1 b2 : Bool) : World :=
  { rightmotorA1 := false, rightmotorA2 := false, leftmotorB1 := b1, leftmotorB2 := b2,
    LED1 := false, LED2 := false, LED3 := false, LED4 := false,
    nBeaconLeft := 0, nBeaconRight := 0, nEncoderLeft := 0, nEncoderRight := 0,
    nLeftADC := 0, nRightADC := 0, trace := [] }

/-! ## Sample environments -/

/-- An environment in which the beacon is never seen, the encoders toggle
between the samples the seek loop compares, the left proximity reading is 320
and the right one 40. -/
def envLost : Env :=
  { beaconLeft := fun _ => true, beaconRight := fun _ => true,
    encoderLeft := fun k => (k + 1) / 3 % 2 == 1, encoderRight := fun k => k % 2 == 1,
    leftADC := fun _ => 320, rightADC := fun _ => 40 }

/-- An environment in which both beacon sensors always detect the beacon, both
encoders toggle at every read, the left proximity reading is 320 and the right
one 40. -/
def envSeen : Env :=
  { beaconLeft := fun _ => false, beaconRight := fun _ => false,
    encoderLeft := fun k => k % 2 == 1, encoderRight := fun k => k % 2 == 1,
    leftADC := fun _ => 320, rightADC := fun _ => 40 }

/-- An environment in which the left beacon sensor never detects the beacon
and the right one always does, both encoders toggle at every read, the left
proximity reading is 320 and the right one 40. -/
def envHalf : Env :=
  { beaconLeft := fun _ => true, beaconRight := fun _ => false,
    encoderLeft := fun k => k % 2 == 1, encoderRight := fun k => k % 2 == 1,
    leftADC := fun _ => 320, rightADC := fun _ => 40 }

/-- An environment like envSeen but with both proximity readings low (50 and
60). -/
def envClear : Env :=
  { beaconLeft := fun _ => false, beaconRight := fun _ => false,
    encoderLeft := fun k => k % 2 == 1, encoderRight := fun k => k % 2 == 1,
    leftADC := fun _ => 50, rightADC := fun _ => 60 }

/-! ## Unfolded forms used in the proofs -/

/-- What turn(dir, 0) does: select the pivot pattern and take the first
encoder sample; the counting loop has nothing to count and no brake follows. -/
def pivot (env : Env) (dir : Int) (w : World) : World :=
  if dir = 1 then (readEncoderLeft env (setMotors true true false true w)).2
  else if dir = -1 then (readEncoderRight env (setMotors false true true true w)).2
  else w

/-- One pass of the body of the seek loop up to the budget test, started at
the loop test: test, turn(beaconLeft * 2 - 1, 0), tick count. -/
def seekBody (env : Env) (s : Counter) : Counter :=
  let c := beaconUnseen env s.w
  let a := readBeaconLeft env c.2
  tickLeft env { count := s.count, temp := s.temp, w := pivot env (bit a.1 * 2 - 1) a.2 }

/-- The state after n passes of a loop body. -/
def iter (body : Counter → Counter) : Nat → Counter → Counter
  | 0, s => s
  | n + 1, s => iter body n (body s)

/-- The locals of facebeacon on entry: count = 0, temp = encoderLeft. -/
def seekStart (env : Env) (w : World) : Counter :=
  { count := 0, temp := (readEncoderLeft env w).1, w := (readEncoderLeft env w).2 }

/-- Number of encoder level changes counted by n passes of a counting body
that starts reading the stream enc at sample k with temp = t: each pass
compares sample k with temp, then stores sample k + 1 in temp. -/
def ticksSeen (enc : Nat → Bool) : Nat → Nat → Bool → Nat
  | 0, _, _ => 0
  | n + 1, k, t => (if t != enc k then 1 else 0) + ticksSeen enc n (k + 2) (enc (k + 1))

/-- The state of turn(1, ang) on entry to its counting loop: right-pivot
pattern set, count = 0, temp = encoderLeft. -/
def rightTurnStart (env : Env) (w : World) : Counter :=
  { count := 0, temp := (readEncoderLeft env (setMotors true true false true w)).1,
    w := (readEncoderLeft env (setMotors true true false true w)).2 }

/-- The state of turn(-1, ang) on entry to its counting loop: left-pivot
pattern set, count = 0, temp = encoderRight. -/
def leftTurnStart (env : Env) (w : World) : Counter :=
  { count := 0, temp := (readEncoderRight env (setMotors false true true true w)).1,
    w := (readEncoderRight env (setMotors false true true true w)).2 }

/-! ## Event lists -/

/-- The events of rightmotorA1 = a1; rightmotorA2 = a2; leftmotorB1 = b1;
leftmotorB2 = b2. -/
def motorWrites (a1 a2 b1 b2 : Bool) : List Event :=
  [Event.write .rightmotorA1 a1, Event.write .rightmotorA2 a2,
   Event.write .leftmotorB1 b1, Event.write .leftmotorB2 b2]

/-- The events of LED1 = v; LED2 = v; LED3 = v; LED4 = v. -/
def ledWrites (v : Bool) : List Event :=
  [Event.write .LED1 v, Event.write .LED2 v, Event.write .LED3 v, Event.write .LED4 v]

/-- The events of wait10ms(n) for n >= 0. -/
def delays (n : Nat) : List Event := List.replicate n Event.delay10ms

/-- The events of flashLEDs(dur) with n = dur / 6: three times LEDs on, n
delays, LEDs off, n delays. -/
def flashEvents (n : Nat) : List Event :=
  (ledWrites true ++ delays n ++ (ledWrites false ++ delays n)) ++
  (ledWrites true ++ delays n ++ (ledWrites false ++ delays n)) ++
  (ledWrites true ++ delays n ++ (ledWrites false ++ delays n))

/-- The events of n consecutive reads of an encoder pin, starting at sample
k of its stream. -/
def encoderReads (s : Sensor) (enc : Nat → Bool) (k n : Nat) : List Event :=
  (List.range n).map fun i => Event.read s (bit (enc (k + i))).toNat

/-- The events of the goal test beaconLeft == 1 && beaconRight == 1 in world w:
the left sensor is read, the right one only when the left reads 1. -/
def goalTestReads (env : Env) (w : World) : List Event :=
  Event.read .beaconLeft (bit (env.beaconLeft w.nBeaconLeft)).toNat ::
    (if env.beaconLeft w.nBeaconLeft
     then [Event.read .beaconRight (bit (env.beaconRight w.nBeaconRight)).toNat]
     else [])

/-- The events of the test readleftADC() >= setpoint_distance ||
readrightADC() >= setpoint_distance in world w: the left channel is converted,
the right one only when the left reading is below the setpoint. -/
def proximityReads (env : Env) (w : World) : List Event :=
  Event.read .leftADC (env.leftADC w.nLeftADC) ::
    (if env.leftADC w.nLeftADC ≥ setpoint_distance then []
     else [Event.read .rightADC (env.rightADC w.nRightADC)])

/-- How many samples of the two encoder streams have been consumed. -/
def World.encCursors (w : World) : Nat × Nat := (w.nEncoderLeft, w.nEncoderRight)

/-! ## Frame lemmas for the output latches -/

@[simp] theorem motors_setMotors (a1 a2 b1 b2 : Bool) (w : World) :
    (setMotors a1 a2 b1 b2 w).motors = (a1, a2, b1, b2) := rfl

@[simp] theorem leds_setMotors (a1 a2 b1 b2 : Bool) (w : World) :
    (setMotors a1 a2 b1 b2 w).leds = w.leds := rfl

@[simp] theorem motors_wait10ms (d : Int) (w : World) :
    (wait10ms d w).motors = w.motors := rfl

@[simp] theorem leds_wait10ms (d : Int) (w : World) :
    (wait10ms d w).leds = w.leds := rfl

@[simp] theorem motors_setLEDs (v : Bool) (w : World) :
    (setLEDs v w).motors = w.motors := rfl

@[simp] theorem leds_setLEDs (v : Bool) (w : World) :
    (setLEDs v w).leds = (v, v, v, v) := rfl

@[simp] theorem motors_flashOnce (d : Int) (w : World) :
    (flashOnce d w).motors = w.motors := by
  simp [flashOnce]

@[simp] theorem motors_flashLEDs (d : Int) (w : World) :
    (flashLEDs d w).motors = w.motors := by
  simp [flashLEDs]

@[simp] theorem motors_readEncoderLeft (env : Env) (w : World) :
    (readEncoderLeft env w).2.motors = w.motors := rfl

@[simp] theorem motors_readEncoderRight (env : Env) (w : World) :
    (readEncoderRight env w).2.motors = w.motors := rfl

@[simp] theorem motors_readBeaconLeft (env : Env) (w : World) :
    (readBeaconLeft env w).2.motors = w.motors := rfl

@[simp] theorem motors_readBeaconRight (env : Env) (w : World) :
    (readBeaconRight env w).2.motors = w.motors := rfl

theorem acc_one (dur : Int) (w : World) :
    acc 1 dur w = wait10ms dur (setMotors false true false true w) := rfl

theorem acc_neg_one (dur : Int) (w : World) :
    acc (-1) dur w = wait10ms dur (setMotors true false true false w) := rfl

theorem acc_zero (dur : Int) (w : World) :
    acc 0 dur w = wait10ms dur (setMotors true true true true w) := rfl

theorem ticksOf_zero : ticksOf 0 = 0 := by decide

theorem ticksOf_sixty : ticksOf 60 = 156 := by decide

/-! ## C8: the H-bridge pattern of acc -/

/-- C8: after acc(dir, dur) the four H-bridge lines (rightmotorA1, rightmotorA2,
leftmotorB1, leftmotorB2) are (0,1,0,1) for dir = 1, (1,0,1,0) for dir = -1 and
(1,1,1,1) for dir = 0, whatever the prior state and the duration; the LEDs are
untouched, so a second acc with the same dir leaves all eight output latches as
the first call left them. -/
theorem acc_motors_fixed (w : World) (dur dur2 : Int) :
    (acc 1 dur w).motors = (false, true, false, true) ∧
    (acc (-1) dur w).motors = (true, false, true, false) ∧
    (acc 0 dur w).motors = (true, true, true, true) ∧
    (∀ dir : Int, dir = 1 ∨ dir = -1 ∨ dir = 0 →
      (acc dir dur2 (acc dir dur w)).motors = (acc dir dur w).motors ∧
      (acc dir dur2 (acc dir dur w)).leds = (acc dir dur w).leds ∧
      (acc dir dur w).leds = w.leds) := by
  refine ⟨rfl, rfl, rfl, ?_⟩
  intro dir h
  rcases h with h | h | h <;> subst h <;> exact ⟨rfl, rfl, rfl⟩

/-- Witness for C8: two reverse commands in a row from the start state. -/
theorem acc_motors_fixed_witness :
    (acc (-1) 7 (acc (-1) 100 (World.start false true))).motors
      = (acc (-1) 100 (World.start false true)).motors ∧
    (acc (-1) 100 (World.start false true)).motors = (true, false, true, false) :=
  ⟨((acc_motors_fixed (World.start false true) 100 7).2.2.2 (-1) (Or.inr (Or.inl rfl))).1,
   (acc_motors_fixed (World.start false true) 100 7).2.1⟩

/-! ## Unfolding lemmas -/

theorem countLoop_done (body : Counter → Counter) (ticks : Int) (fuel : Nat) (s : Counter)
    (h : ¬ s.count < ticks) : countLoop body ticks fuel s = some s := by
  cases fuel <;> simp [countLoop, h]

theorem turn_zero (env : Env) (dir : Int) (fuel : Nat) (w : World) :
    turn env dir 0 fuel w = some (pivot env dir w) := by
  unfold turn pivot
  simp only [ticksOf_zero]
  by_cases h1 : dir = 1
  · simp [h1, countLoop_done]
  · by_cases h2 : dir = -1
    · simp [h2, countLoop_done]
    · simp [h1, h2]

theorem turn_brakes (env : Env) (dir ang : Int) (fuel : Nat) (w w1 : World)
    (hang : ang ≠ 0) (h : turn env dir ang fuel w = some w1) :
    w1.motors = (true, true, true, true) := by
  unfold turn at h
  simp only [Option.map_eq_some'] at h
  obtain ⟨w2, -, h2⟩ := h
  rw [if_pos hang] at h2
  rw [← h2]
  rfl

theorem facebeaconLoop_ret (env : Env) (fuel : Nat) (s : Counter)
    (h : (beaconUnseen env s.w).1 = false) :
    facebeaconLoop env fuel s = .ret (beaconUnseen env s.w).2 := by
  cases fuel <;> simp [facebeaconLoop, h]

theorem facebeaconLoop_zero (env : Env) (s : Counter)
    (h : (beaconUnseen env s.w).1 = true) :
    facebeaconLoop env 0 s = .spin (beaconUnseen env s.w).2 := by
  simp [facebeaconLoop, h]

theorem facebeaconLoop_succ (env : Env) (fuel : Nat) (s : Counter)
    (h : (beaconUnseen env s.w).1 = true) :
    facebeaconLoop env (fuel + 1) s =
      if overBudget (seekBody env s).count
      then .halt (acc 0 0 (flashLEDs 300 (seekBody env s).w))
      else facebeaconLoop env fuel (seekBody env s) := by
  rw [facebeaconLoop]
  simp only [h, if_true, turn_zero]
  rfl

theorem maneuver_ne_halt (env : Env) (fuel : Nat) (w w1 : World) :
    maneuver env fuel w ≠ .halt w1 := by
  unfold maneuver
  intro h
  cases h1 : turn env (-1) 60 fuel (acc (-1) 100 (wait10ms 10 (flashLEDs 100 w))) with
  | none => simp [h1] at h
  | some w2 =>
    cases h2 : turn env 1 60 fuel (acc 1 120 w2) with
    | none => simp [h1, h2] at h
    | some w4 => simp [h1, h2] at h

theorem avoid_eq (env : Env) (fuel : Nat) (w : World) :
    avoid env fuel w =
      if env.beaconLeft w.nBeaconLeft = true ∧ env.beaconRight w.nBeaconRight = true
      then .halt (flashLEDs 300 (bothUnseen env (acc 0 0 w)).2)
      else maneuver env fuel (bothUnseen env (acc 0 0 w)).2 := by
  have hn : (acc 0 0 w).nBeaconLeft = w.nBeaconLeft := rfl
  have hm : (acc 0 0 w).nBeaconRight = w.nBeaconRight := rfl
  unfold avoid
  cases hl : env.beaconLeft w.nBeaconLeft <;> cases hr : env.beaconRight w.nBeaconRight <;>
    simp [bothUnseen, readBeaconLeft, readBeaconRight, hn, hm, hl, hr]

/-! ## The counting loop -/

theorem iter_succ_last (body : Counter → Counter) (n : Nat) (s : Counter) :
    iter body (n + 1) s = body (iter body n s) := by
  induction n generalizing s with
  | zero => rfl
  | succ n ih => exact ih (body s)

theorem countLoop_first_exit (body : Counter → Counter) (ticks : Int) (fuel n : Nat)
    (s : Counter) (hn : n ≤ fuel) (hlt : ∀ m < n, (iter body m s).count < ticks)
    (hge : ¬ (iter body n s).count < ticks) :
    countLoop body ticks fuel s = some (iter body n s) := by
  induction n generalizing fuel s with
  | zero => exact countLoop_done body ticks fuel s hge
  | succ n ih =>
    obtain ⟨f, rfl⟩ : ∃ f, fuel = f + 1 := ⟨fuel - 1, by omega⟩
    have h0 : s.count < ticks := hlt 0 (Nat.succ_pos n)
    rw [countLoop, if_pos h0]
    exact ih f (body s) (by omega) (fun m hm => hlt (m + 1) (by omega)) hge

theorem countLoop_starved (body : Counter → Counter) (ticks : Int) (fuel : Nat)
    (s : Counter) (hlt : ∀ m ≤ fuel, (iter body m s).count < ticks) :
    countLoop body ticks fuel s = none := by
  induction fuel generalizing s with
  | zero => simp [countLoop, hlt 0 (Nat.le_refl 0), iter] ; exact hlt 0 (Nat.le_refl 0)
  | succ f ih =>
    have h0 : s.count < ticks := hlt 0 (Nat.zero_le _)
    rw [countLoop, if_pos h0]
    exact ih (body s) (fun m hm => hlt (m + 1) (by omega))

theorem countLoop_some_iff (body : Counter → Counter) (ticks : Int) (fuel : Nat)
    (s s1 : Counter) :
    countLoop body ticks fuel s = some s1 ↔
      ∃ n ≤ fuel, (∀ m < n, (iter body m s).count < ticks) ∧
        ¬ (iter body n s).count < ticks ∧ s1 = iter body n s := by
  constructor
  · intro h
    by_cases hex : ∃ n, n ≤ fuel ∧ ¬ (iter body n s).count < ticks
    · classical
      have hmin : ∀ m < Nat.find hex, (iter body m s).count < ticks := by
        intro m hm
        by_contra hc
        exact Nat.find_min hex hm ⟨by have := (Nat.find_spec hex).1; omega, hc⟩
      have hsp := Nat.find_spec hex
      have := countLoop_first_exit body ticks fuel (Nat.find hex) s hsp.1 hmin hsp.2
      rw [this] at h
      exact ⟨Nat.find hex, hsp.1, hmin, hsp.2, (Option.some.inj h).symm⟩
    · have hall : ∀ m ≤ fuel, (iter body m s).count < ticks := by
        intro m hm
        by_contra hc
        exact hex ⟨m, hm, hc⟩
      rw [countLoop_starved body ticks fuel s hall] at h
      cases h
  · rintro ⟨n, hn, hlt, hge, rfl⟩
    exact countLoop_first_exit body ticks fuel n s hn hlt hge

theorem count_iter_tickLeft (env : Env) (n : Nat) (s : Counter) :
    (iter (tickLeft env) n s).count =
      s.count + (ticksSeen env.encoderLeft n s.w.nEncoderLeft s.temp : Nat) := by
  induction n generalizing s with
  | zero => simp [iter, ticksSeen]
  | succ n ih =>
    rw [iter, ih, ticksSeen]
    simp only [tickLeft, readEncoderLeft]
    split <;> simp only [Nat.add_assoc, Nat.reduceAdd] <;> push_cast <;> omega

theorem count_iter_tickRight (env : Env) (n : Nat) (s : Counter) :
    (iter (tickRight env) n s).count =
      s.count + (ticksSeen env.encoderRight n s.w.nEncoderRight s.temp : Nat) := by
  induction n generalizing s with
  | zero => simp [iter, ticksSeen]
  | succ n ih =>
    rw [iter, ih, ticksSeen]
    simp only [tickRight, readEncoderRight]
    split <;> simp only [Nat.add_assoc, Nat.reduceAdd] <;> push_cast <;> omega

theorem ticksSeen_succ_le (enc : Nat → Bool) (n k : Nat) (t : Bool) :
    ticksSeen enc n k t ≤ ticksSeen enc (n + 1) k t ∧
    ticksSeen enc (n + 1) k t ≤ ticksSeen enc n k t + 1 := by
  induction n generalizing k t with
  | zero => simp [ticksSeen]; split <;> simp
  | succ n ih =>
    have h := ih (k + 2) (enc (k + 1))
    have e1 : ticksSeen enc (n + 1) k t =
        (if t != enc k then 1 else 0) + ticksSeen enc n (k + 2) (enc (k + 1)) := rfl
    have e2 : ticksSeen enc (n + 1 + 1) k t =
        (if t != enc k then 1 else 0) + ticksSeen enc (n + 1) (k + 2) (enc (k + 1)) := rfl
    rw [e1, e2]
    constructor <;> omega

/-- The first pass at which the tick count is no longer below a non-negative
target is a pass at which it equals the target. -/
theorem ticksSeen_first_reach (enc : Nat → Bool) (k : Nat) (t : Bool) (ticks : Int) (n : Nat)
    (h0 : 0 ≤ ticks) (hlt : ∀ m < n, (ticksSeen enc m k t : Int) < ticks)
    (hge : ¬ (ticksSeen enc n k t : Int) < ticks) :
    (ticksSeen enc n k t : Int) = ticks := by
  cases n with
  | zero =>
    simp [ticksSeen] at hge ⊢
    omega
  | succ n =>
    have h1 := hlt n (Nat.lt_succ_self n)
    have h2 := (ticksSeen_succ_le enc n k t).2
    omega

/-! ## Characterisation of a finished turn -/

theorem count_rightTurn (env : Env) (w : World) (n : Nat) :
    (iter (tickLeft env) n (rightTurnStart env w)).count =
      (ticksSeen env.encoderLeft n (w.nEncoderLeft + 1) (env.encoderLeft w.nEncoderLeft) : Nat) := by
  rw [count_iter_tickLeft]
  simp [rightTurnStart, readEncoderLeft]
  rfl

theorem count_leftTurn (env : Env) (w : World) (n : Nat) :
    (iter (tickRight env) n (leftTurnStart env w)).count =
      (ticksSeen env.encoderRight n (w.nEncoderRight + 1) (env.encoderRight w.nEncoderRight) : Nat) := by
  rw [count_iter_tickRight]
  simp [leftTurnStart, readEncoderRight]
  rfl

theorem turn_right_some_iff (env : Env) (ang : Int) (fuel : Nat) (w w1 : World)
    (h0 : 0 ≤ ticksOf ang) (hang : ang ≠ 0) :
    turn env 1 ang fuel w = some w1 ↔
      ∃ n ≤ fuel,
        (∀ m < n, (ticksSeen env.encoderLeft m (w.nEncoderLeft + 1)
          (env.encoderLeft w.nEncoderLeft) : Int) < ticksOf ang) ∧
        (ticksSeen env.encoderLeft n (w.nEncoderLeft + 1)
          (env.encoderLeft w.nEncoderLeft) : Int) = ticksOf ang ∧
        w1 = setMotors true true true true (iter (tickLeft env) n (rightTurnStart env w)).w := by
  have hturn : turn env 1 ang fuel w =
      (countLoop (tickLeft env) (ticksOf ang) fuel (rightTurnStart env w)).map
        fun s => setMotors true true true true s.w := by
    unfold turn
    simp [hang, rightTurnStart, Option.map_map, Function.comp_def]
  rw [hturn, Option.map_eq_some']
  constructor
  · rintro ⟨s1, hs, rfl⟩
    obtain ⟨n, hn, hlt, hge, rfl⟩ := (countLoop_some_iff _ _ _ _ _).mp hs
    simp only [count_rightTurn] at hlt hge
    exact ⟨n, hn, hlt, ticksSeen_first_reach _ _ _ _ n h0 hlt hge, rfl⟩
  · rintro ⟨n, hn, hlt, heq, rfl⟩
    refine ⟨_, (countLoop_some_iff _ _ _ _ _).mpr ⟨n, hn, ?_, ?_, rfl⟩, rfl⟩
    · simpa only [count_rightTurn] using hlt
    · simp only [count_rightTurn]
      omega

theorem turn_left_some_iff (env : Env) (ang : Int) (fuel : Nat) (w w1 : World)
    (h0 : 0 ≤ ticksOf ang) (hang : ang ≠ 0) :
    turn env (-1) ang fuel w = some w1 ↔
      ∃ n ≤ fuel,
        (∀ m < n, (ticksSeen env.encoderRight m (w.nEncoderRight + 1)
          (env.encoderRight w.nEncoderRight) : Int) < ticksOf ang) ∧
        (ticksSeen env.encoderRight n (w.nEncoderRight + 1)
          (env.encoderRight w.nEncoderRight) : Int) = ticksOf ang ∧
        w1 = setMotors true true true true (iter (tickRight env) n (leftTurnStart env w)).w := by
  have hturn : turn env (-1) ang fuel w =
      (countLoop (tickRight env) (ticksOf ang) fuel (leftTurnStart env w)).map
        fun s => setMotors true true true true s.w := by
    unfold turn
    simp [hang, leftTurnStart, Option.map_map, Function.comp_def]
  rw [hturn, Option.map_eq_some']
  constructor
  · rintro ⟨s1, hs, rfl⟩
    obtain ⟨n, hn, hlt, hge, rfl⟩ := (countLoop_some_iff _ _ _ _ _).mp hs
    simp only [count_leftTurn] at hlt hge
    exact ⟨n, hn, hlt, ticksSeen_first_reach _ _ _ _ n h0 hlt hge, rfl⟩
  · rintro ⟨n, hn, hlt, heq, rfl⟩
    refine ⟨_, (countLoop_some_iff _ _ _ _ _).mpr ⟨n, hn, ?_, ?_, rfl⟩, rfl⟩
    · simpa only [count_leftTurn] using hlt
    · simp only [count_leftTurn]
      omega

/-! ## Traces of the primitives -/

theorem trace_setMotors (a1 a2 b1 b2 : Bool) (w : World) :
    (setMotors a1 a2 b1 b2 w).trace = w.trace ++ motorWrites a1 a2 b1 b2 := by
  simp [setMotors, setPin, motorWrites]

theorem trace_wait10ms (d : Int) (w : World) :
    (wait10ms d w).trace = w.trace ++ delays d.toNat := rfl

theorem trace_setLEDs (v : Bool) (w : World) :
    (setLEDs v w).trace = w.trace ++ ledWrites v := by
  simp [setLEDs, setPin, ledWrites]

theorem trace_flashOnce (d : Int) (w : World) :
    (flashOnce d w).trace =
      w.trace ++ (ledWrites true ++ delays (Int.tdiv d 6).toNat ++
        (ledWrites false ++ delays (Int.tdiv d 6).toNat)) := by
  simp [flashOnce, trace_wait10ms, trace_setLEDs, List.append_assoc]

theorem trace_flashLEDs (d : Int) (w : World) :
    (flashLEDs d w).trace = w.trace ++ flashEvents (Int.tdiv d 6).toNat := by
  simp only [flashLEDs, trace_flashOnce, flashEvents, List.append_assoc]

theorem trace_acc_one (d : Int) (w : World) :
    (acc 1 d w).trace = w.trace ++ motorWrites false true false true ++ delays d.toNat := by
  rw [acc_one, trace_wait10ms, trace_setMotors]

theorem trace_acc_neg_one (d : Int) (w : World) :
    (acc (-1) d w).trace = w.trace ++ motorWrites true false true false ++ delays d.toNat := by
  rw [acc_neg_one, trace_wait10ms, trace_setMotors]

theorem trace_acc_zero (d : Int) (w : World) :
    (acc 0 d w).trace = w.trace ++ motorWrites true true true true ++ delays d.toNat := by
  rw [acc_zero, trace_wait10ms, trace_setMotors]

theorem encoderReads_succ (s : Sensor) (enc : Nat → Bool) (k n : Nat) :
    encoderReads s enc k (n + 1) =
      Event.read s (bit (enc k)).toNat :: encoderReads s enc (k + 1) n := by
  simp only [encoderReads, List.range_succ_eq_map, List.map_cons, List.map_map, Nat.add_zero]
  congr 1
  apply List.map_congr_left
  intro i _
  simp [Function.comp, Nat.add_comm, Nat.add_left_comm]

theorem iter_tickRight_world (env : Env) (n : Nat) (s : Counter) :
    (iter (tickRight env) n s).w =
      { s.w with
        nEncoderRight := s.w.nEncoderRight + 2 * n,
        trace := s.w.trace ++ encoderReads .encoderRight env.encoderRight s.w.nEncoderRight (2 * n) } := by
  induction n generalizing s with
  | zero => simp [iter, encoderReads]
  | succ n ih =>
    rw [iter, ih]
    have e : 2 * (n + 1) = (2 * n + 1) + 1 := by ring
    rw [e, encoderReads_succ, encoderReads_succ]
    simp [tickRight, readEncoderRight, Nat.add_assoc, Nat.add_comm, Nat.add_left_comm]
    omega

theorem iter_tickLeft_world (env : Env) (n : Nat) (s : Counter) :
    (iter (tickLeft env) n s).w =
      { s.w with
        nEncoderLeft := s.w.nEncoderLeft + 2 * n,
        trace := s.w.trace ++ encoderReads .encoderLeft env.encoderLeft s.w.nEncoderLeft (2 * n) } := by
  induction n generalizing s with
  | zero => simp [iter, encoderReads]
  | succ n ih =>
    rw [iter, ih]
    have e : 2 * (n + 1) = (2 * n + 1) + 1 := by ring
    rw [e, encoderReads_succ, encoderReads_succ]
    simp [tickLeft, readEncoderLeft, Nat.add_assoc, Nat.add_comm, Nat.add_left_comm]
    omega

/-! ## Frame lemmas for the encoder cursors -/

@[simp] theorem encCursors_setMotors (a1 a2 b1 b2 : Bool) (w : World) :
    (setMotors a1 a2 b1 b2 w).encCursors = w.encCursors := rfl

@[simp] theorem encCursors_wait10ms (d : Int) (w : World) :
    (wait10ms d w).encCursors = w.encCursors := rfl

@[simp] theorem encCursors_setLEDs (v : Bool) (w : World) :
    (setLEDs v w).encCursors = w.encCursors := rfl

@[simp] theorem encCursors_flashLEDs (d : Int) (w : World) :
    (flashLEDs d w).encCursors = w.encCursors := by
  simp [flashLEDs, flashOnce]

@[simp] theorem encCursors_acc (dir d : Int) (w : World) :
    (acc dir d w).encCursors = w.encCursors := by
  unfold acc
  split_ifs <;> simp

@[simp] theorem encCursors_bothUnseen (env : Env) (w : World) :
    (bothUnseen env w).2.encCursors = w.encCursors := by
  unfold bothUnseen
  cases h : (readBeaconLeft env w).1 <;> simp only [h, if_true] <;> rfl

theorem trace_bothUnseen (env : Env) (w : World) :
    (bothUnseen env w).2.trace = w.trace ++ goalTestReads env w := by
  unfold bothUnseen goalTestReads
  cases h : env.beaconLeft w.nBeaconLeft <;>
    simp [readBeaconLeft, readBeaconRight, h]

theorem encoderReads_one_add (s : Sensor) (enc : Nat → Bool) (k n : Nat) :
    Event.read s (bit (enc k)).toNat :: encoderReads s enc (k + 1) (2 * n) =
      encoderReads s enc k (2 * n + 1) :=
  (encoderReads_succ s enc k (2 * n)).symm

/-! ## One pass of the avoidance manoeuvre -/

theorem avoid_run (env : Env) (fuel : Nat) (w : World) (n1 n2 : Nat)
    (hgoal : ¬ (env.beaconLeft w.nBeaconLeft = true ∧ env.beaconRight w.nBeaconRight = true))
    (h1 : n1 ≤ fuel) (h2 : n2 ≤ fuel)
    (hl1 : ∀ m < n1, ticksSeen env.encoderRight m (w.nEncoderRight + 1)
      (env.encoderRight w.nEncoderRight) < 156)
    (he1 : ticksSeen env.encoderRight n1 (w.nEncoderRight + 1)
      (env.encoderRight w.nEncoderRight) = 156)
    (hl2 : ∀ m < n2, ticksSeen env.encoderLeft m (w.nEncoderLeft + 1)
      (env.encoderLeft w.nEncoderLeft) < 156)
    (he2 : ticksSeen env.encoderLeft n2 (w.nEncoderLeft + 1)
      (env.encoderLeft w.nEncoderLeft) = 156) :
    ∃ w4, avoid env fuel w = .ret w4 ∧ w4.motors = (true, true, true, true) ∧
      w4.trace = w.trace ++ (motorWrites true true true true ++ goalTestReads env w ++
        flashEvents 16 ++ delays 10 ++
        motorWrites true false true false ++ delays 100 ++
        motorWrites false true true true ++
        encoderReads .encoderRight env.encoderRight w.nEncoderRight (2 * n1 + 1) ++
        motorWrites true true true true ++
        motorWrites false true false true ++ delays 120 ++
        motorWrites true true false true ++
        encoderReads .encoderLeft env.encoderLeft w.nEncoderLeft (2 * n2 + 1) ++
        motorWrites true true true true) := by
  rw [avoid_eq, if_neg hgoal]
  unfold maneuver
  have hc0 : (bothUnseen env (acc 0 0 w)).2.encCursors = w.encCursors := by simp
  generalize hg : (bothUnseen env (acc 0 0 w)).2 = g2 at hc0
  have htg : g2.trace = w.trace ++ motorWrites true true true true ++ goalTestReads env w := by
    rw [← hg, trace_bothUnseen, trace_acc_zero]
    have : goalTestReads env (acc 0 0 w) = goalTestReads env w := rfl
    simp [delays, this]
  have hc1 : (acc (-1) 100 (wait10ms 10 (flashLEDs 100 g2))).encCursors = w.encCursors := by
    simp [hc0]
  have ht1 : (acc (-1) 100 (wait10ms 10 (flashLEDs 100 g2))).trace =
      g2.trace ++ flashEvents 16 ++ delays 10 ++ motorWrites true false true false ++ delays 100 := by
    rw [trace_acc_neg_one, trace_wait10ms, trace_flashLEDs]
    rfl
  generalize acc (-1) 100 (wait10ms 10 (flashLEDs 100 g2)) = w1 at hc1 ht1
  have hk1 : w1.nEncoderRight = w.nEncoderRight := congrArg Prod.snd hc1
  have hj1 : w1.nEncoderLeft = w.nEncoderLeft := congrArg Prod.fst hc1
  have hturn1 : turn env (-1) 60 fuel w1 =
      some (setMotors true true true true (iter (tickRight env) n1 (leftTurnStart env w1)).w) := by
    refine (turn_left_some_iff env 60 fuel w1 _ (by decide) (by decide)).mpr ⟨n1, h1, ?_, ?_, rfl⟩
    · intro m hm
      rw [hk1, ticksOf_sixty]
      exact_mod_cast hl1 m hm
    · rw [hk1, ticksOf_sixty]
      exact_mod_cast he1
  simp only [hturn1]
  have hc2 : (acc 1 120 (setMotors true true true true
      (iter (tickRight env) n1 (leftTurnStart env w1)).w)).encCursors.1 = w.nEncoderLeft := by
    rw [encCursors_acc, encCursors_setMotors, iter_tickRight_world]
    exact hj1
  have ht2 : (acc 1 120 (setMotors true true true true
      (iter (tickRight env) n1 (leftTurnStart env w1)).w)).trace =
      w1.trace ++ motorWrites false true true true ++
        encoderReads .encoderRight env.encoderRight w.nEncoderRight (2 * n1 + 1) ++
        motorWrites true true true true ++ motorWrites false true false true ++ delays 120 := by
    rw [trace_acc_one, trace_setMotors, iter_tickRight_world]
    simp only [leftTurnStart, readEncoderRight, trace_setMotors, List.append_assoc,
      List.singleton_append, encoderReads_one_add]
    simp [setMotors, setPin, hk1, encoderReads_one_add]
  generalize acc 1 120 (setMotors true true true true
      (iter (tickRight env) n1 (leftTurnStart env w1)).w) = w3 at hc2 ht2
  have hj3 : w3.nEncoderLeft = w.nEncoderLeft := hc2
  have hturn2 : turn env 1 60 fuel w3 =
      some (setMotors true true true true (iter (tickLeft env) n2 (rightTurnStart env w3)).w) := by
    refine (turn_right_some_iff env 60 fuel w3 _ (by decide) (by decide)).mpr ⟨n2, h2, ?_, ?_, rfl⟩
    · intro m hm
      rw [hj3, ticksOf_sixty]
      exact_mod_cast hl2 m hm
    · rw [hj3, ticksOf_sixty]
      exact_mod_cast he2
  simp only [hturn2]
  refine ⟨_, rfl, rfl, ?_⟩
  rw [trace_setMotors, iter_tickLeft_world]
  simp only [rightTurnStart, readEncoderLeft, trace_setMotors, List.append_assoc,
    List.singleton_append]
  simp [setMotors, setPin, hj3, encoderReads_one_add, ht2, ht1, htg, List.append_assoc]

/-! ## Membership in event lists and toggling encoders -/

theorem mem_delays (e : Event) (n : Nat) : e ∈ delays n → e = Event.delay10ms := by
  intro h
  exact (List.mem_replicate.mp h).2

theorem mem_encoderReads (e : Event) (s : Sensor) (enc : Nat → Bool) (k n : Nat) :
    e ∈ encoderReads s enc k n → ∃ v, e = Event.read s v := by
  intro h
  obtain ⟨i, -, rfl⟩ := List.mem_map.mp h
  exact ⟨_, rfl⟩

theorem mem_flashEvents (e : Event) (n : Nat) :
    e ∈ flashEvents n → e = Event.delay10ms ∨ ∃ p v, e = Event.write p v := by
  intro h
  simp only [flashEvents, List.mem_append] at h
  have hl : ∀ v, e ∈ ledWrites v → ∃ p v, e = Event.write p v := by
    intro v hv
    simp only [ledWrites, List.mem_cons, List.mem_singleton, List.not_mem_nil, or_false] at hv
    rcases hv with h | h | h | h <;> exact ⟨_, _, h⟩
  rcases h with ((((h | h) | (h | h)) | ((h | h) | (h | h))) | ((h | h) | (h | h)))
  all_goals first
    | exact Or.inr (hl _ h)
    | exact Or.inl (mem_delays e n h)

theorem mem_motorWrites (e : Event) (a1 a2 b1 b2 : Bool) :
    e ∈ motorWrites a1 a2 b1 b2 → ∃ p v, e = Event.write p v := by
  intro h
  simp only [motorWrites, List.mem_cons, List.mem_singleton, List.not_mem_nil, or_false] at h
  rcases h with h | h | h | h <;> exact ⟨_, _, h⟩

/-- On a stream that is high exactly at the odd samples, a counting body that
starts at an odd sample with temp = 0 counts one tick per pass. -/
theorem ticksSeen_toggle (n k : Nat) (hk : k % 2 = 1) :
    ticksSeen (fun i => i % 2 == 1) n k false = n := by
  induction n generalizing k with
  | zero => rfl
  | succ n ih =>
    have h1 : ((k + 1) % 2 == 1) = false := by
      have : (k + 1) % 2 = 0 := by omega
      simp [this]
    have h2 : (k % 2 == 1) = true := by simp [hk]
    rw [ticksSeen]
    simp only [h1, h2]
    rw [ih (k + 2) (by omega)]
    simp
    omega

/-! ## The seek loop -/

theorem overBudget_iff (c : Int) : overBudget c = true ↔ 936 ≤ c := by
  have h : mulAng2ticks 360 = 3925868288 := by decide
  unfold overBudget
  rw [h]
  simp only [decide_eq_true_eq]
  constructor <;> intro h1 <;> norm_num at h1 ⊢ <;> omega

theorem beaconUnseen_of_never_centred (env : Env)
    (hB : ∀ i j, env.beaconLeft i = true ∨ env.beaconRight j = true) (w : World) :
    (beaconUnseen env w).1 = true := by
  unfold beaconUnseen
  cases hl : env.beaconLeft w.nBeaconLeft with
  | true => simp [readBeaconLeft, hl]
  | false =>
    have hr := (hB w.nBeaconLeft w.nBeaconRight).resolve_left (by simp [hl])
    simp [readBeaconLeft, readBeaconRight, hl, hr]

theorem seekBody_count (env : Env) (s : Counter) :
    s.count ≤ (seekBody env s).count ∧ (seekBody env s).count ≤ s.count + 1 := by
  unfold seekBody tickLeft
  simp only
  split <;> constructor <;> omega

theorem seek_count_step (env : Env) (n : Nat) (s : Counter) :
    (iter (seekBody env) n s).count ≤ (iter (seekBody env) (n + 1) s).count ∧
    (iter (seekBody env) (n + 1) s).count ≤ (iter (seekBody env) n s).count + 1 := by
  rw [iter_succ_last]
  exact seekBody_count env _

theorem seekBody_motors (env : Env) (s : Counter) :
    (seekBody env s).w.motors =
      if env.beaconLeft (beaconUnseen env s.w).2.nBeaconLeft = true
      then (true, true, false, true) else (false, true, true, true) := by
  cases h : env.beaconLeft (beaconUnseen env s.w).2.nBeaconLeft <;>
    simp [seekBody, tickLeft, readBeaconLeft, pivot, bit, h]

theorem seek_lost_at (env : Env) (n fuel : Nat) (s : Counter) (hn : n < fuel)
    (hT : ∀ m ≤ n, (beaconUnseen env (iter (seekBody env) m s).w).1 = true)
    (hlt : ∀ m, m < n → overBudget (iter (seekBody env) (m + 1) s).count = false)
    (hge : overBudget (iter (seekBody env) (n + 1) s).count = true) :
    facebeaconLoop env fuel s =
      .halt (acc 0 0 (flashLEDs 300 (iter (seekBody env) (n + 1) s).w)) := by
  induction n generalizing fuel s with
  | zero =>
    obtain ⟨f, rfl⟩ : ∃ f, fuel = f + 1 := ⟨fuel - 1, by omega⟩
    rw [facebeaconLoop_succ env f s (hT 0 (Nat.le_refl 0))]
    have hge1 : overBudget (seekBody env s).count = true := hge
    rw [if_pos hge1]
    rfl
  | succ n ih =>
    obtain ⟨f, rfl⟩ : ∃ f, fuel = f + 1 := ⟨fuel - 1, by omega⟩
    rw [facebeaconLoop_succ env f s (hT 0 (Nat.zero_le _))]
    have h0 : overBudget (seekBody env s).count = false := hlt 0 (Nat.succ_pos n)
    rw [if_neg (by simp [h0])]
    exact ih f (seekBody env s) (by omega) (fun m hm => hT (m + 1) (by omega))
      (fun m hm => hlt (m + 1) (by omega)) hge

theorem seek_spins (env : Env) (fuel : Nat) (s : Counter)
    (hT : ∀ m ≤ fuel, (beaconUnseen env (iter (seekBody env) m s).w).1 = true)
    (hlt : ∀ m, m < fuel → overBudget (iter (seekBody env) (m + 1) s).count = false) :
    ∃ w1, facebeaconLoop env fuel s = .spin w1 := by
  induction fuel generalizing s with
  | zero => exact ⟨_, facebeaconLoop_zero env s (hT 0 (Nat.le_refl 0))⟩
  | succ f ih =>
    rw [facebeaconLoop_succ env f s (hT 0 (Nat.zero_le _))]
    have h0 : overBudget (seekBody env s).count = false := hlt 0 (Nat.succ_pos f)
    rw [if_neg (by simp [h0])]
    exact ih (seekBody env s) (fun m hm => hT (m + 1) (by omega))
      (fun m hm => hlt (m + 1) (by omega))

theorem seek_count_le (env : Env) (n : Nat) (s : Counter) :
    (iter (seekBody env) n s).count ≤ s.count + n := by
  induction n with
  | zero => simp [iter]
  | succ n ih =>
    have := (seek_count_step env n s).2
    push_cast
    omega

/-- With the beacon never centred, facebeacon ends in the lost halt exactly
when some pass n + 1 within the fuel is the first whose tick count reaches 936;
the halt follows that pass at once. -/
theorem facebeacon_halt_iff (env : Env) (fuel : Nat) (w w1 : World)
    (hT : ∀ m ≤ fuel,
      (beaconUnseen env (iter (seekBody env) m (seekStart env w)).w).1 = true) :
    facebeacon env fuel w = .halt w1 ↔
      ∃ n < fuel,
        (∀ m ≤ n, (iter (seekBody env) m (seekStart env w)).count ≤ 935) ∧
        (iter (seekBody env) (n + 1) (seekStart env w)).count = 936 ∧
        w1 = acc 0 0 (flashLEDs 300 (iter (seekBody env) (n + 1) (seekStart env w)).w) := by
  have hface : facebeacon env fuel w = facebeaconLoop env fuel (seekStart env w) := rfl
  have hnot : ∀ c : Int, overBudget c = false ↔ c ≤ 935 := by
    intro c
    have := overBudget_iff c
    cases h : overBudget c <;> simp [h] at this ⊢ <;> omega
  rw [hface]
  constructor
  · intro h
    by_cases hex : ∃ n, n < fuel ∧ overBudget (iter (seekBody env) (n + 1) (seekStart env w)).count = true
    · classical
      have hsp := Nat.find_spec hex
      have hmin : ∀ m, m < Nat.find hex →
          overBudget (iter (seekBody env) (m + 1) (seekStart env w)).count = false := by
        intro m hm
        by_contra hc
        exact Nat.find_min hex hm ⟨by omega, by simpa using hc⟩
      have hrun := seek_lost_at env (Nat.find hex) fuel (seekStart env w) hsp.1
        (fun m hm => hT m (by omega)) hmin hsp.2
      rw [hrun] at h
      have hle : ∀ m ≤ Nat.find hex, (iter (seekBody env) m (seekStart env w)).count ≤ 935 := by
        intro m hm
        cases m with
        | zero => simp [iter, seekStart]
        | succ m => exact (hnot _).mp (hmin m (by omega))
      have hstep := (seek_count_step env (Nat.find hex) (seekStart env w)).2
      have hlast := hle (Nat.find hex) (Nat.le_refl _)
      have hover := (overBudget_iff _).mp hsp.2
      exact ⟨Nat.find hex, hsp.1, hle, by omega, (Run.halt.inj h).symm⟩
    · have hall : ∀ m, m < fuel →
          overBudget (iter (seekBody env) (m + 1) (seekStart env w)).count = false := by
        intro m hm
        by_contra hc
        exact hex ⟨m, hm, by simpa using hc⟩
      obtain ⟨w2, hw2⟩ := seek_spins env fuel (seekStart env w) hT hall
      rw [hw2] at h
      cases h
  · rintro ⟨n, hn, hle, heq, rfl⟩
    refine seek_lost_at env n fuel (seekStart env w) hn (fun m hm => hT m (by omega)) ?_ ?_
    · intro m hm
      exact (hnot _).mpr (hle (m + 1) (by omega))
    · exact (overBudget_iff _).mpr (by omega)

theorem facebeacon_never_returns (env : Env) (fuel : Nat) (w w1 : World)
    (hT : ∀ m ≤ fuel,
      (beaconUnseen env (iter (seekBody env) m (seekStart env w)).w).1 = true) :
    facebeacon env fuel w ≠ .ret w1 := by
  have hface : facebeacon env fuel w = facebeaconLoop env fuel (seekStart env w) := rfl
  rw [hface]
  clear hface
  generalize seekStart env w = s at hT
  induction fuel generalizing s with
  | zero =>
    rw [facebeaconLoop_zero env s (hT 0 (Nat.le_refl 0))]
    intro h
    cases h
  | succ f ih =>
    rw [facebeaconLoop_succ env f s (hT 0 (Nat.zero_le _))]
    split
    · intro h
      cases h
    · exact ih _ (fun m hm => hT (m + 1) (by omega))

/-! ## The run of facebeacon in envLost -/

theorem envLost_never_centred :
    ∀ i j, envLost.beaconLeft i = true ∨ envLost.beaconRight j = true :=
  fun _ _ => Or.inl rfl

theorem seekBody_envLost (s : Counter) (j : Nat) (hc : s.w.nEncoderLeft = 3 * j + 1)
    (ht : s.temp = (j % 2 == 1)) :
    (seekBody envLost s).count = s.count + 1 ∧
    (seekBody envLost s).w.nEncoderLeft = 3 * (j + 1) + 1 ∧
    (seekBody envLost s).temp = ((j + 1) % 2 == 1) := by
  have e1 : (3 * j + 1 + 1 + 1) / 3 = j + 1 := by omega
  have e2 : (3 * j + 1 + 1 + 1 + 1) / 3 = j + 1 := by omega
  refine ⟨?_, ?_, ?_⟩
  · simp [seekBody, beaconUnseen, readBeaconLeft, pivot, bit, tickLeft, readEncoderLeft,
      setMotors, setPin, envLost, hc, ht, e1]
    intro h
    omega
  · simp [seekBody, beaconUnseen, readBeaconLeft, pivot, bit, tickLeft, readEncoderLeft,
      setMotors, setPin, envLost, hc]
    omega
  · simp [seekBody, beaconUnseen, readBeaconLeft, pivot, bit, tickLeft, readEncoderLeft,
      setMotors, setPin, envLost, hc, e2]

theorem seek_count_envLost (n j : Nat) (s : Counter) (hc : s.w.nEncoderLeft = 3 * j + 1)
    (ht : s.temp = (j % 2 == 1)) :
    (iter (seekBody envLost) n s).count = s.count + n := by
  induction n generalizing j s with
  | zero => simp [iter]
  | succ n ih =>
    obtain ⟨h1, h2, h3⟩ := seekBody_envLost s j hc ht
    rw [iter, ih (j + 1) (seekBody envLost s) h2 h3, h1]
    push_cast
    ring

theorem seek_count_envLost_start (n : Nat) (w : World) (hw : w.nEncoderLeft = 0) :
    (iter (seekBody envLost) n (seekStart envLost w)).count = n := by
  have h := seek_count_envLost n 0 (seekStart envLost w)
    (by simp [seekStart, readEncoderLeft, hw]) (by simp [seekStart, readEncoderLeft, envLost, hw])
  rw [h]
  simp [seekStart]

theorem trace_lost_halt (w : World) :
    (acc 0 0 (flashLEDs 300 w)).trace =
      w.trace ++ flashEvents 50 ++ motorWrites true true true true := by
  rw [trace_acc_zero, trace_flashLEDs]
  simp [delays]
  rfl

/-! ## The obstacle branch starts with the brake -/

theorem trace_obstacleAhead (env : Env) (w : World) :
    (obstacleAhead env w).2.trace = w.trace ++ proximityReads env w := by
  unfold obstacleAhead proximityReads
  by_cases h : env.leftADC w.nLeftADC ≥ setpoint_distance
  · simp [readleftADC, h]
  · simp [readleftADC, readrightADC, h]

theorem turn_left_trace (env : Env) (ang : Int) (fuel : Nat) (w w1 : World)
    (h : turn env (-1) ang fuel w = some w1) : ∃ l, w1.trace = w.trace ++ l := by
  unfold turn at h
  simp only [Option.map_eq_some'] at h
  obtain ⟨w2, h2, rfl⟩ := h
  simp only [show ((-1 : Int) = 1) = False from by simp, if_false, if_true,
    Option.map_eq_some'] at h2
  obtain ⟨s1, hs, rfl⟩ := h2
  obtain ⟨n, -, -, -, rfl⟩ := (countLoop_some_iff _ _ _ _ _).mp hs
  split
  · rw [trace_setMotors, iter_tickRight_world]
    simp only [readEncoderRight, trace_setMotors, List.append_assoc]
    exact ⟨_, rfl⟩
  · rw [iter_tickRight_world]
    simp only [readEncoderRight, trace_setMotors, List.append_assoc]
    exact ⟨_, rfl⟩

theorem turn_right_trace (env : Env) (ang : Int) (fuel : Nat) (w w1 : World)
    (h : turn env 1 ang fuel w = some w1) : ∃ l, w1.trace = w.trace ++ l := by
  unfold turn at h
  simp only [Option.map_eq_some'] at h
  obtain ⟨w2, h2, rfl⟩ := h
  simp only [if_true, Option.map_eq_some'] at h2
  obtain ⟨s1, hs, rfl⟩ := h2
  obtain ⟨n, -, -, -, rfl⟩ := (countLoop_some_iff _ _ _ _ _).mp hs
  split
  · rw [trace_setMotors, iter_tickLeft_world]
    simp only [readEncoderLeft, trace_setMotors, List.append_assoc]
    exact ⟨_, rfl⟩
  · rw [iter_tickLeft_world]
    simp only [readEncoderLeft, trace_setMotors, List.append_assoc]
    exact ⟨_, rfl⟩

theorem maneuver_trace (env : Env) (fuel : Nat) (w : World) :
    ∃ l, (maneuver env fuel w).world.trace =
      w.trace ++ flashEvents 16 ++ delays 10 ++ motorWrites true false true false ++ l := by
  have ht1 : (acc (-1) 100 (wait10ms 10 (flashLEDs 100 w))).trace =
      w.trace ++ flashEvents 16 ++ delays 10 ++ motorWrites true false true false ++ delays 100 := by
    rw [trace_acc_neg_one, trace_wait10ms, trace_flashLEDs]
    rfl
  unfold maneuver
  generalize acc (-1) 100 (wait10ms 10 (flashLEDs 100 w)) = w1 at ht1
  cases h1 : turn env (-1) 60 fuel w1 with
  | none =>
    simp only [h1, Run.world]
    exact ⟨_, ht1⟩
  | some w2 =>
    obtain ⟨l2, hl2⟩ := turn_left_trace env 60 fuel w1 w2 h1
    have ht3 : (acc 1 120 w2).trace = w1.trace ++ (l2 ++ motorWrites false true false true
        ++ delays 120) := by
      rw [trace_acc_one, hl2]
      simp only [List.append_assoc]
      rfl
    cases h2 : turn env 1 60 fuel (acc 1 120 w2) with
    | none =>
      refine ⟨delays 100 ++ (l2 ++ motorWrites false true false true ++ delays 120), ?_⟩
      simp only [h1, h2, Run.world, ht3, ht1, List.append_assoc]
    | some w4 =>
      obtain ⟨l4, hl4⟩ := turn_right_trace env 60 fuel _ w4 h2
      refine ⟨delays 100 ++ (l2 ++ motorWrites false true false true ++ delays 120 ++ l4), ?_⟩
      simp only [h1, h2, Run.world, hl4, ht3, ht1, List.append_assoc]

theorem avoid_trace_starts (env : Env) (fuel : Nat) (w : World) :
    ∃ l, (avoid env fuel w).world.trace =
      w.trace ++ motorWrites true true true true ++ goalTestReads env w ++ l := by
  have htg : (bothUnseen env (acc 0 0 w)).2.trace =
      w.trace ++ motorWrites true true true true ++ goalTestReads env w := by
    rw [trace_bothUnseen, trace_acc_zero]
    have : goalTestReads env (acc 0 0 w) = goalTestReads env w := rfl
    simp [delays, this]
  rw [avoid_eq]
  split
  · exact ⟨flashEvents 50, by rw [Run.world, trace_flashLEDs, htg]; rfl⟩
  · obtain ⟨l, hl⟩ := maneuver_trace env fuel (bothUnseen env (acc 0 0 w)).2
    refine ⟨flashEvents 16 ++ delays 10 ++ motorWrites true false true false ++ l, ?_⟩
    rw [hl, htg]
    simp only [List.append_assoc]

/-! ## C10: angle 0 means endless turning -/

/-- C10: turn(1, 0) and turn(-1, 0) select the pivot pattern of their direction
(right turn: right wheel (1,1), left wheel (0,1); left turn: right wheel (0,1),
left wheel (1,1)), take only the initial encoder sample (no tick is counted) and
return without braking, whatever the fuel; whereas whenever turn(dir, ang)
with ang != 0 returns, all four H-bridge lines are high. -/
theorem turn_zero_endless (env : Env) (fuel : Nat) (w : World) :
    (∃ w1, turn env 1 0 fuel w = some w1 ∧ w1.motors = (true, true, false, true) ∧
      w1.trace = w.trace ++ [Event.write .rightmotorA1 true, Event.write .rightmotorA2 true,
        Event.write .leftmotorB1 false, Event.write .leftmotorB2 true,
        Event.read .encoderLeft (bit (env.encoderLeft w.nEncoderLeft)).toNat]) ∧
    (∃ w1, turn env (-1) 0 fuel w = some w1 ∧ w1.motors = (false, true, true, true) ∧
      w1.trace = w.trace ++ [Event.write .rightmotorA1 false, Event.write .rightmotorA2 true,
        Event.write .leftmotorB1 true, Event.write .leftmotorB2 true,
        Event.read .encoderRight (bit (env.encoderRight w.nEncoderRight)).toNat]) ∧
    (∀ (dir ang : Int) (w1 : World), dir = 1 ∨ dir = -1 → ang ≠ 0 →
      turn env dir ang fuel w = some w1 → w1.motors = (true, true, true, true)) := by
  refine ⟨⟨_, turn_zero env 1 fuel w, rfl, ?_⟩, ⟨_, turn_zero env (-1) fuel w, rfl, ?_⟩, ?_⟩
  · simp [pivot, readEncoderLeft, setMotors, setPin]
  · simp [pivot, readEncoderRight, setMotors, setPin]
  · intro dir ang w1 _ hang h
    exact turn_brakes env dir ang fuel w w1 hang h

/-- Witness for C10: a right turn by 1 degree that finishes ends braked. -/
theorem turn_zero_endless_witness :
    turn envSeen 1 1 2 (World.start false false) ≠ none ∧
    ∀ w1, turn envSeen 1 1 2 (World.start false false) = some w1 →
      w1.motors = (true, true, true, true) :=
  ⟨by decide, fun w1 h =>
    (turn_zero_endless envSeen 2 (World.start false false)).2.2 1 1 w1 (Or.inl rfl) (by decide) h⟩

/-! ## C7: facebeacon with the beacon already centred -/

/-- C7: if both beacon sensors read 0 (detected) at the first loop test,
facebeacon returns at once: besides the initial encoder sample and the two
beacon reads nothing happens (no pin write, no delay), and the motor and LED
latches are as before the call. -/
theorem facebeacon_centered_returns (env : Env) (fuel : Nat) (w : World)
    (hL : env.beaconLeft w.nBeaconLeft = false)
    (hR : env.beaconRight w.nBeaconRight = false) :
    ∃ w1, facebeacon env fuel w = .ret w1 ∧ w1.motors = w.motors ∧ w1.leds = w.leds ∧
      w1.trace = w.trace ++ [Event.read .encoderLeft (bit (env.encoderLeft w.nEncoderLeft)).toNat,
        Event.read .beaconLeft 0, Event.read .beaconRight 0] := by
  have hn : (readEncoderLeft env w).2.nBeaconLeft = w.nBeaconLeft := rfl
  have hm : (readEncoderLeft env w).2.nBeaconRight = w.nBeaconRight := rfl
  have hc : (beaconUnseen env (readEncoderLeft env w).2).1 = false := by
    simp [beaconUnseen, readBeaconLeft, readBeaconRight, hn, hm, hL, hR]
  refine ⟨_, facebeaconLoop_ret env fuel _ hc, ?_, ?_, ?_⟩
  · simp [beaconUnseen, readBeaconLeft, readBeaconRight, hn, hL]
    rfl
  · simp [beaconUnseen, readBeaconLeft, readBeaconRight, hn, hL]
    rfl
  · simp [beaconUnseen, readBeaconLeft, readBeaconRight, readEncoderLeft, hL, hR, bit]

/-- Witness for C7: the beacon is centred from the start. -/
theorem facebeacon_centered_returns_witness :
    ∃ w1, facebeacon envSeen 0 (World.start false true) = .ret w1 ∧
      w1.motors = (World.start false true).motors ∧ w1.leds = (World.start false true).leds ∧
      w1.trace = (World.start false true).trace ++
        [Event.read .encoderLeft (bit (envSeen.encoderLeft (World.start false true).nEncoderLeft)).toNat,
         Event.read .beaconLeft 0, Event.read .beaconRight 0] :=
  facebeacon_centered_returns envSeen 0 (World.start false true) rfl rfl

/-! ## C6: the seek direction -/

/-- C6: in every pass of the seek loop (the loop test found the beacon not
centred) the turn issued is chosen by the left beacon sensor alone: with l the
sample of beaconLeft read for the argument, the command is turn(-1, 0) (left
pivot pattern) when l = 0 and turn(1, 0) (right pivot pattern) when l = 1,
whatever the right sensor reads; the pass then continues from the world that
turn left behind. -/
theorem seek_turn_by_left_sensor (env : Env) (fuel : Nat) (s : Counter)
    (h : (beaconUnseen env s.w).1 = true) :
    ∃ w1, turn env (bit (env.beaconLeft (beaconUnseen env s.w).2.nBeaconLeft) * 2 - 1) 0 fuel
        (readBeaconLeft env (beaconUnseen env s.w).2).2 = some w1 ∧
      (env.beaconLeft (beaconUnseen env s.w).2.nBeaconLeft = false →
        turn env (-1) 0 fuel (readBeaconLeft env (beaconUnseen env s.w).2).2 = some w1 ∧
        w1.motors = (false, true, true, true)) ∧
      (env.beaconLeft (beaconUnseen env s.w).2.nBeaconLeft = true →
        turn env 1 0 fuel (readBeaconLeft env (beaconUnseen env s.w).2).2 = some w1 ∧
        w1.motors = (true, true, false, true)) ∧
      facebeaconLoop env (fuel + 1) s =
        (if overBudget (tickLeft env { count := s.count, temp := s.temp, w := w1 }).count
         then .halt (acc 0 0 (flashLEDs 300
           (tickLeft env { count := s.count, temp := s.temp, w := w1 }).w))
         else facebeaconLoop env fuel (tickLeft env { count := s.count, temp := s.temp, w := w1 })) := by
  refine ⟨_, turn_zero env _ fuel _, ?_, ?_, ?_⟩
  · intro hl
    rw [hl]
    exact ⟨turn_zero env _ fuel _, rfl⟩
  · intro hl
    rw [hl]
    exact ⟨turn_zero env _ fuel _, rfl⟩
  · exact facebeaconLoop_succ env fuel s h

/-- Witness for C6: the first pass of the seek loop when no sensor sees the
beacon turns right. -/
theorem seek_turn_by_left_sensor_witness :
    ∃ w1, turn envLost 1 0 5 (readBeaconLeft envLost
        (beaconUnseen envLost (seekStart envLost (World.start false false)).w).2).2 = some w1 ∧
      w1.motors = (true, true, false, true) :=
  match seek_turn_by_left_sensor envLost 5 (seekStart envLost (World.start false false)) rfl with
  | ⟨w1, _, _, hr, _⟩ => ⟨w1, hr rfl⟩

/-! ## C4: the proximity test -/

/-- C4: with left and right the next proximity readings after facebeacon has
returned, the if statement of the main loop runs the obstacle branch when
left >= 300 or right >= 300 (the first pin writes after the conversions are
then the four brake writes, followed by the beacon resample), and otherwise
(both below 300) does exactly one forward pulse acc(1, 5): after the two
conversions the only events are the four forward pin writes and five delays. -/
theorem proximity_branch (env : Env) (fuel : Nat) (w : World) :
    (env.leftADC w.nLeftADC ≥ 300 ∨ env.rightADC w.nRightADC ≥ 300 →
      proximityStep env fuel w = avoid env fuel (obstacleAhead env w).2 ∧
      ∃ l, (proximityStep env fuel w).world.trace =
        w.trace ++ proximityReads env w ++ motorWrites true true true true ++
          goalTestReads env w ++ l) ∧
    (env.leftADC w.nLeftADC < 300 ∧ env.rightADC w.nRightADC < 300 →
      ∃ w1, proximityStep env fuel w = .ret w1 ∧ w1 = acc 1 5 (obstacleAhead env w).2 ∧
        w1.motors = (false, true, false, true) ∧
        w1.trace = w.trace ++ [Event.read .leftADC (env.leftADC w.nLeftADC),
          Event.read .rightADC (env.rightADC w.nRightADC),
          Event.write .rightmotorA1 false, Event.write .rightmotorA2 true,
          Event.write .leftmotorB1 false, Event.write .leftmotorB2 true,
          Event.delay10ms, Event.delay10ms, Event.delay10ms, Event.delay10ms,
          Event.delay10ms]) ∧
    (∀ w0, facebeacon env fuel w0 = .ret w →
      mainCycle env fuel w0 = proximityStep env fuel w) := by
  have hn : (readleftADC env w).2.nRightADC = w.nRightADC := rfl
  refine ⟨?_, ?_, ?_⟩
  · intro h
    have hstep : proximityStep env fuel w = avoid env fuel (obstacleAhead env w).2 := by
      unfold proximityStep
      by_cases hl : env.leftADC w.nLeftADC ≥ 300
      · simp [obstacleAhead, readleftADC, setpoint_distance, hl]
      · have hr : env.rightADC w.nRightADC ≥ 300 := h.resolve_left hl
        simp [obstacleAhead, readleftADC, readrightADC, setpoint_distance, hl, hr]
    refine ⟨hstep, ?_⟩
    obtain ⟨l, hl⟩ := avoid_trace_starts env fuel (obstacleAhead env w).2
    have hg : goalTestReads env (obstacleAhead env w).2 = goalTestReads env w := by
      unfold obstacleAhead
      by_cases hc : (readleftADC env w).1 ≥ setpoint_distance
      · simp only [hc, if_true]
        rfl
      · simp only [hc, if_false]
        rfl
    rw [hstep, hl, trace_obstacleAhead, hg]
    exact ⟨l, rfl⟩
  · rintro ⟨hl, hr⟩
    have hl2 : ¬ 300 ≤ env.leftADC w.nLeftADC := Nat.not_le.mpr hl
    have hr2 : ¬ 300 ≤ env.rightADC w.nRightADC := Nat.not_le.mpr hr
    refine ⟨acc 1 5 (obstacleAhead env w).2, ?_, rfl, rfl, ?_⟩
    · unfold proximityStep
      simp [obstacleAhead, readleftADC, readrightADC, setpoint_distance, hl2, hr2]
    · simp [obstacleAhead, readleftADC, readrightADC, setpoint_distance, hl2, hr2,
        acc_one, wait10ms, setMotors, setPin, List.replicate]
  · intro w0 h0
    unfold mainCycle
    rw [h0]

/-- Witness for C4 (readings 50 and 60): forward pulse, no manoeuvre. -/
theorem proximity_branch_witness :
    ∃ w1, proximityStep envClear 0 (World.start false false) = .ret w1 ∧
      w1 = acc 1 5 (obstacleAhead envClear (World.start false false)).2 :=
  match (proximity_branch envClear 0 (World.start false false)).2.1 ⟨by decide, by decide⟩ with
  | ⟨w1, h1, h2, _⟩ => ⟨w1, h1, h2⟩

/-! ## C1: the goal test of the obstacle branch -/

/-- C1 fails: with an obstacle ahead and both beacon sensors reading 0 (beacon
detected on both sides) the obstacle branch does not halt but runs the
avoidance manoeuvre. -/
theorem goal_not_declared_when_centered :
    envSeen.beaconLeft (World.start false false).nBeaconLeft = false ∧
    envSeen.beaconRight (World.start false false).nBeaconRight = false ∧
    (∀ w1, avoid envSeen 0 (World.start false false) ≠ .halt w1) ∧
    avoid envSeen 0 (World.start false false) =
      maneuver envSeen 0 (bothUnseen envSeen (acc 0 0 (World.start false false))).2 := by
  have h := avoid_eq envSeen 0 (World.start false false)
  rw [if_neg (by decide)] at h
  refine ⟨rfl, rfl, ?_, h⟩
  intro w1
  rw [h]
  exact maneuver_ne_halt _ _ _ _

/-- C1 as amended: after the brake of the obstacle branch the program halts
(flashLEDs(300), then loops forever) exactly when both beacon sensors read 1
(beacon not detected on either side); in every other beacon state it runs the
avoidance manoeuvre. -/
theorem avoid_halts_iff_both_unseen (env : Env) (fuel : Nat) (w : World) :
    ((∃ w1, avoid env fuel w = .halt w1) ↔
      (env.beaconLeft w.nBeaconLeft = true ∧ env.beaconRight w.nBeaconRight = true)) ∧
    (env.beaconLeft w.nBeaconLeft = true ∧ env.beaconRight w.nBeaconRight = true →
      avoid env fuel w = .halt (flashLEDs 300 (bothUnseen env (acc 0 0 w)).2)) ∧
    (¬ (env.beaconLeft w.nBeaconLeft = true ∧ env.beaconRight w.nBeaconRight = true) →
      avoid env fuel w = maneuver env fuel (bothUnseen env (acc 0 0 w)).2) := by
  have h := avoid_eq env fuel w
  refine ⟨⟨?_, ?_⟩, ?_, ?_⟩
  · rintro ⟨w1, hw⟩
    by_contra hc
    rw [if_neg hc] at h
    rw [h] at hw
    exact maneuver_ne_halt _ _ _ _ hw
  · intro hc
    rw [if_pos hc] at h
    exact ⟨_, h⟩
  · intro hc
    rw [if_pos hc] at h
    exact h
  · intro hc
    rw [if_neg hc] at h
    exact h

/-- Witness for C1 as amended: both sensors read 1, so the program halts. -/
theorem avoid_halts_iff_both_unseen_witness :
    avoid envLost 0 (World.start false false) =
      .halt (flashLEDs 300 (bothUnseen envLost (acc 0 0 (World.start false false))).2) :=
  (avoid_halts_iff_both_unseen envLost 0 (World.start false false)).2.1 ⟨rfl, rfl⟩

/-! ## C2: where a turn stops -/

/-- C5 fails as stated: with the left beacon sensor reading 0 (so the goal is
not declared) a complete pass of the obstacle branch never reads the right
beacon sensor; only the left one is resampled after the brake. -/
theorem avoidance_skips_right_beacon :
    ∃ w4, avoid envSeen 156 (World.start false false) = .ret w4 ∧
      (∀ v, Event.read .beaconRight v ∉ w4.trace) ∧
      Event.read .beaconLeft 0 ∈ w4.trace := by
  have hseen : ∀ m, ticksSeen (fun i => i % 2 == 1) m 1 false = m :=
    fun m => ticksSeen_toggle m 1 rfl
  obtain ⟨w4, hr, -, ht⟩ := avoid_run envSeen 156 (World.start false false) 156 156
    (by decide) (Nat.le_refl _) (Nat.le_refl _)
    (fun m hm => lt_of_eq_of_lt (hseen m) hm) (hseen 156)
    (fun m hm => lt_of_eq_of_lt (hseen m) hm) (hseen 156)
  refine ⟨w4, hr, ?_, ?_⟩
  · intro v hv
    rw [ht] at hv
    simp only [List.mem_append, World.start, List.not_mem_nil, false_or] at hv
    have hgt : ∀ e, e ∈ goalTestReads envSeen (World.start false false) →
        e = Event.read .beaconLeft 0 := by
      intro e he
      simpa [goalTestReads, envSeen, bit] using he
    rcases hv with (((((((((((((h | h) | h) | h) | h) | h) | h) | h) | h) | h) | h) | h) | h) | h)
    all_goals first
      | (obtain ⟨p, b, hb⟩ := mem_motorWrites _ _ _ _ _ h; cases hb)
      | (have hb := mem_delays _ _ h; cases hb)
      | (obtain ⟨b, hb⟩ := mem_encoderReads _ _ _ _ _ h; cases hb)
      | (have hb := hgt _ h; cases hb)
      | (rcases mem_flashEvents _ _ h with hb | ⟨p, b, hb⟩ <;> cases hb)
  · rw [ht]
    simp [goalTestReads, envSeen, World.start, bit]

/-- C5 as amended: when the goal is not declared and both pivots complete
(after n1 and n2 passes of their counting loops, the first passes at which 156
ticks have been seen), one pass of the obstacle branch returns to the main loop
with this trace, in order: brake; resample of the left beacon sensor and, only
when it reads 1, of the right one; flashLEDs(100) (16 delays per phase) and a
pause of 10 delays; reverse pattern and 100 delays; left pivot pattern, the
encoderRight reads of a 156-tick count, brake; forward pattern and 120 delays;
right pivot pattern, the encoderLeft reads of a 156-tick count, brake. -/
theorem avoidance_trace (env : Env) (fuel : Nat) (w : World) (n1 n2 : Nat)
    (hgoal : ¬ (env.beaconLeft w.nBeaconLeft = true ∧ env.beaconRight w.nBeaconRight = true))
    (h1 : n1 ≤ fuel) (h2 : n2 ≤ fuel)
    (hl1 : ∀ m < n1, ticksSeen env.encoderRight m (w.nEncoderRight + 1)
      (env.encoderRight w.nEncoderRight) < 156)
    (he1 : ticksSeen env.encoderRight n1 (w.nEncoderRight + 1)
      (env.encoderRight w.nEncoderRight) = 156)
    (hl2 : ∀ m < n2, ticksSeen env.encoderLeft m (w.nEncoderLeft + 1)
      (env.encoderLeft w.nEncoderLeft) < 156)
    (he2 : ticksSeen env.encoderLeft n2 (w.nEncoderLeft + 1)
      (env.encoderLeft w.nEncoderLeft) = 156) :
    ticksOf 60 = 156 ∧
    ∃ w4, avoid env fuel w = .ret w4 ∧ w4.motors = (true, true, true, true) ∧
      w4.trace = w.trace ++ (motorWrites true true true true ++ goalTestReads env w ++
        flashEvents 16 ++ delays 10 ++
        motorWrites true false true false ++ delays 100 ++
        motorWrites false true true true ++
        encoderReads .encoderRight env.encoderRight w.nEncoderRight (2 * n1 + 1) ++
        motorWrites true true true true ++
        motorWrites false true false true ++ delays 120 ++
        motorWrites true true false true ++
        encoderReads .encoderLeft env.encoderLeft w.nEncoderLeft (2 * n2 + 1) ++
        motorWrites true true true true) :=
  ⟨ticksOf_sixty, avoid_run env fuel w n1 n2 hgoal h1 h2 hl1 he1 hl2 he2⟩

/-- Witness for C5 as amended: left sensor 1, right sensor 0, toggling
encoders; each pivot takes 156 passes. -/
theorem avoidance_trace_witness :
    ∃ w4, avoid envHalf 200 (World.start false false) = .ret w4 ∧
      w4.motors = (true, true, true, true) ∧
      w4.trace = (World.start false false).trace ++ (motorWrites true true true true ++
        goalTestReads envHalf (World.start false false) ++
        flashEvents 16 ++ delays 10 ++
        motorWrites true false true false ++ delays 100 ++
        motorWrites false true true true ++
        encoderReads .encoderRight envHalf.encoderRight 0 (2 * 156 + 1) ++
        motorWrites true true true true ++
        motorWrites false true false true ++ delays 120 ++
        motorWrites true true false true ++
        encoderReads .encoderLeft envHalf.encoderLeft 0 (2 * 156 + 1) ++
        motorWrites true true true true) :=
  (avoidance_trace envHalf 200 (World.start false false) 156 156
    (by decide) (by decide) (by decide)
    (fun m hm => lt_of_eq_of_lt (ticksSeen_toggle m 1 rfl) hm)
    (ticksSeen_toggle 156 1 rfl)
    (fun m hm => lt_of_eq_of_lt (ticksSeen_toggle m 1 rfl) hm)
    (ticksSeen_toggle 156 1 rfl)).2

/-! ## C3: when the beacon is declared lost -/

/-- C3 fails: in single precision 360 * ang2ticks is 936 - 2^-14, so a count of
936 already exceeds it. With the beacon never seen and one tick per pass,
facebeacon halts as lost right after pass 936, when count = 936, which does not
exceed 360 * 2.6 = 936. -/
theorem lost_declared_at_936 :
    facebeacon envLost 936 (World.start false false) =
      .halt (acc 0 0 (flashLEDs 300
        (iter (seekBody envLost) 936 (seekStart envLost (World.start false false))).w)) ∧
    (iter (seekBody envLost) 936 (seekStart envLost (World.start false false))).count = 936 ∧
    overBudget 936 = true ∧
    mulAng2ticks 360 = 936 * 2 ^ 22 - 2 ^ 8 ∧
    ¬ ((936 : ℚ) > 360 * (26 / 10)) := by
  refine ⟨?_, ?_, by decide, by decide, by norm_num⟩
  · refine (facebeacon_halt_iff envLost 936 _ _
      (fun _ _ => beaconUnseen_of_never_centred envLost envLost_never_centred _)).mpr
      ⟨935, by decide, ?_, ?_, rfl⟩
    · intro m hm
      rw [seek_count_envLost_start m _ rfl]
      exact_mod_cast (by omega : m ≤ 935)
    · rw [seek_count_envLost_start _ _ rfl]
      rfl
  · rw [seek_count_envLost_start _ _ rfl]
    rfl

/-- C3 as amended: when the loop test finds the beacon not centred at every
pass (hT, for the passes within the fuel), facebeacon never returns, and it ends in the lost halt (flashLEDs(300), acc(0, 0), loop forever) exactly
when some pass n + 1 within the fuel is the first whose tick count exceeds the
float product 360 * ang2ticks = 936 - 2^-14, that is the first at which count
reaches 936: at every earlier pass count <= 935, the halt follows pass n + 1
with no further pass, and no halt is declared while count <= 935. -/
theorem facebeacon_lost_at_budget (env : Env) (fuel : Nat) (w w1 : World)
    (hT : ∀ m ≤ fuel,
      (beaconUnseen env (iter (seekBody env) m (seekStart env w)).w).1 = true) :
    (facebeacon env fuel w = .halt w1 ↔
      ∃ n < fuel,
        (∀ m ≤ n, (iter (seekBody env) m (seekStart env w)).count ≤ 935) ∧
        (iter (seekBody env) (n + 1) (seekStart env w)).count = 936 ∧
        w1 = acc 0 0 (flashLEDs 300 (iter (seekBody env) (n + 1) (seekStart env w)).w)) ∧
    facebeacon env fuel w ≠ .ret w1 ∧
    (∀ c : Int, overBudget c = true ↔ 936 ≤ c) :=
  ⟨facebeacon_halt_iff env fuel w w1 hT, facebeacon_never_returns env fuel w w1 hT,
   overBudget_iff⟩

/-- Witness for C3 as amended: the beacon is never seen and every pass counts
one tick, so the lost halt follows pass 936. -/
theorem facebeacon_lost_at_budget_witness :
    facebeacon envLost 1000 (World.start false true) =
      .halt (acc 0 0 (flashLEDs 300
        (iter (seekBody envLost) 936 (seekStart envLost (World.start false true))).w)) :=
  (facebeacon_lost_at_budget envLost 1000 (World.start false true) _
    (fun _ _ => beaconUnseen_of_never_centred envLost (fun _ _ => Or.inl rfl) _)).1.mpr
    ⟨935, by decide,
     fun m hm => by
      rw [seek_count_envLost_start m _ rfl]
      exact_mod_cast (by omega : m ≤ 935),
     by rw [seek_count_envLost_start _ _ rfl]; rfl,
     rfl⟩

/-! ## C9: the order of flash and brake in the lost halt -/

/-- C9 at a failing input: when facebeacon declares the beacon lost (beacon
never seen, one tick per pass), the world s in which the lost flash starts has
the H-bridge lines in the right pivot pattern (1,1,0,1), they stay so through
the whole of flashLEDs(300), and the four brake writes are the last events of
the run, after all LED writes and delays of the flash. -/
theorem lost_flash_while_turning :
    ∃ s : World,
      facebeacon envLost 936 (World.start false false) = .halt (acc 0 0 (flashLEDs 300 s)) ∧
      s.motors = (true, true, false, true) ∧
      (flashLEDs 300 s).motors = (true, true, false, true) ∧
      (acc 0 0 (flashLEDs 300 s)).motors = (true, true, true, true) ∧
      (acc 0 0 (flashLEDs 300 s)).trace =
        s.trace ++ flashEvents 50 ++ motorWrites true true true true := by
  have hm : (iter (seekBody envLost) 936
      (seekStart envLost (World.start false false))).w.motors = (true, true, false, true) := by
    rw [iter_succ_last, seekBody_motors]
    rfl
  refine ⟨_, ?_, hm, ?_, rfl, trace_lost_halt _⟩
  · refine (facebeacon_halt_iff envLost 936 _ _
      (fun _ _ => beaconUnseen_of_never_centred envLost envLost_never_centred _)).mpr
      ⟨935, by decide, ?_, ?_, rfl⟩
    · intro m hm
      rw [seek_count_envLost_start m _ rfl]
      exact_mod_cast (by omega : m ≤ 935)
    · rw [seek_count_envLost_start _ _ rfl]
      rfl
  · rw [motors_flashLEDs, hm]

end ShadowBot
